import Mathlib

/-!
Verification of the seal-configuration model and root-credential helpers of
the vault repository.

The Go sources embedded here are `vault/seal_config.go` material
(`SealConfig`, `SealConfig.Validate`, `SealConfig.Clone`, `SealConfigType`
and its constants, `SealConfigType.IsSameAs`) and
`sdk/logical/root_credential.go` (`RootCredential`, `RootCredential.Validate`,
`GetRootCredential`).

External libraries (base64 decoding, OpenPGP entity parsing, the cron
schedule parser) are treated as parameters of the embedded functions, so
every theorem quantifies over their behaviour; Go machine integers that
never undergo arithmetic in the embedded code are modelled as `Int`.
-/

namespace Vault

/-- Validation errors produced by `SealConfig.Validate`, one constructor per
distinct `fmt.Errorf` site in the source.  The two PGP constructors carry the
wrapped underlying error message (`%w`), exactly as the source does; note
that neither carries the index of the offending key. -/
inductive VError where
  | shareCountError
  | thresholdCountError
  | thresholdTooLowError
  | sharesRangeError
  | thresholdRangeError
  | thresholdExceedsSharesError
  | storedSharesError
  | pgpKeyCountError
  | pgpDecodeError (wrapped : String)
  | pgpParseError (wrapped : String)
deriving DecidableEq, Repr

/-- The `SealConfig` struct.  Go `int` fields become `Int`, `[]string`
becomes `List String`, `[]byte` becomes `List Nat`, `[][]byte` becomes
`List (List Nat)`.  The Go field `Type` is rendered `type'` because `Type`
is reserved in Lean. -/
structure SealConfig where
  type' : String
  SecretShares : Int
  SecretThreshold : Int
  PGPKeys : List String
  Nonce : String
  Backup : Bool
  StoredShares : Int
  RekeyProgress : List (List Nat)
  VerificationRequired : Bool
  VerificationKey : List Nat
  VerificationNonce : String
  VerificationProgress : List (List Nat)
  Name : String
deriving DecidableEq, Repr

/-- The PGP key loop of `SealConfig.Validate`: for each key string, first
`base64.StdEncoding.DecodeString` (parameter `decodeB64`), then
`openpgp.ReadEntity` (parameter `readEntity`); the first failure is returned,
wrapped in the corresponding error constructor. -/
def checkPGPKeys (decodeB64 : String → Except String (List Nat))
    (readEntity : List Nat → Except String Unit) : List String → Option VError
  | [] => none
  | keystring :: rest =>
    match decodeB64 keystring with
    | .error e => some (.pgpDecodeError e)
    | .ok data =>
      match readEntity data with
      | .error e => some (.pgpParseError e)
      | .ok _ => checkPGPKeys decodeB64 readEntity rest

/-- `SealConfig.Validate`, returning `none` for `nil` and `some e` for an
error, with the guard chain in source order.  `decodeB64` and `readEntity`
stand for the external base64 and OpenPGP libraries. -/
def SealConfig.Validate (decodeB64 : String → Except String (List Nat))
    (readEntity : List Nat → Except String Unit) (s : SealConfig) :
    Option VError :=
  if s.SecretShares < 1 then some .shareCountError
  else if s.SecretThreshold < 1 then some .thresholdCountError
  else if s.SecretShares > 1 ∧ s.SecretThreshold = 1 then some .thresholdTooLowError
  else if s.SecretShares > 255 then some .sharesRangeError
  else if s.SecretThreshold > 255 then some .thresholdRangeError
  else if s.SecretThreshold > s.SecretShares then some .thresholdExceedsSharesError
  else if s.StoredShares > 1 then some .storedSharesError
  else if s.PGPKeys.length > 0 ∧ (s.PGPKeys.length : Int) ≠ s.SecretShares then
    some .pgpKeyCountError
  else if s.PGPKeys.length > 0 then checkPGPKeys decodeB64 readEntity s.PGPKeys
  else none

/-- `SealConfig.Validate` with the receiver threaded explicitly: every
`return` site of the Go method is rendered as a pair of the receiver state
at that point and the returned value.  The source contains no assignment to
`s` or its fields, so each site returns the incoming `s`. -/
def SealConfig.ValidateSt (decodeB64 : String → Except String (List Nat))
    (readEntity : List Nat → Except String Unit) (s : SealConfig) :
    SealConfig × Option VError :=
  if s.SecretShares < 1 then (s, some .shareCountError)
  else if s.SecretThreshold < 1 then (s, some .thresholdCountError)
  else if s.SecretShares > 1 ∧ s.SecretThreshold = 1 then (s, some .thresholdTooLowError)
  else if s.SecretShares > 255 then (s, some .sharesRangeError)
  else if s.SecretThreshold > 255 then (s, some .thresholdRangeError)
  else if s.SecretThreshold > s.SecretShares then (s, some .thresholdExceedsSharesError)
  else if s.StoredShares > 1 then (s, some .storedSharesError)
  else if s.PGPKeys.length > 0 ∧ (s.PGPKeys.length : Int) ≠ s.SecretShares then
    (s, some .pgpKeyCountError)
  else if s.PGPKeys.length > 0 then (s, checkPGPKeys decodeB64 readEntity s.PGPKeys)
  else (s, none)

/-- `SealConfig.Clone`.  The struct literal sets the scalar fields; the two
`if len(...) > 0` blocks allocate and copy `PGPKeys` and `VerificationKey`
(at the value level the copy equals the source list); `RekeyProgress` and
`VerificationProgress` are never assigned and stay `nil` (here `[]`). -/
def SealConfig.Clone (s : SealConfig) : SealConfig :=
  { type' := s.type'
    SecretShares := s.SecretShares
    SecretThreshold := s.SecretThreshold
    Nonce := s.Nonce
    Backup := s.Backup
    StoredShares := s.StoredShares
    VerificationRequired := s.VerificationRequired
    VerificationNonce := s.VerificationNonce
    Name := s.Name
    PGPKeys := if s.PGPKeys.length > 0 then s.PGPKeys.map (fun x => x) else []
    VerificationKey :=
      if s.VerificationKey.length > 0 then s.VerificationKey.map (fun x => x) else []
    RekeyProgress := []
    VerificationProgress := [] }

/-- `SealConfigType` is a Go string type. -/
def SealConfigType := String
deriving DecidableEq, Repr

/-- Wrapper type constants of the external `go-kms-wrapping` library, each a
fixed string tag. -/
def WrapperTypeShamir : String := "shamir"

def WrapperTypePkcs11 : String := "pkcs11"

def WrapperTypeAwsKms : String := "awskms"

def WrapperTypeHsmAuto : String := "hsm-auto"

def WrapperTypeTransit : String := "transit"

def WrapperTypeGcpCkms : String := "gcpckms"

def SealConfigTypeMultiseal : SealConfigType := "multiseal"

def SealConfigTypeShamir : SealConfigType := WrapperTypeShamir

def SealConfigTypePkcs11 : SealConfigType := WrapperTypePkcs11

def SealConfigTypeAwsKms : SealConfigType := WrapperTypeAwsKms

def SealConfigTypeHsmAutoDeprecated : SealConfigType := WrapperTypeHsmAuto

def SealConfigTypeTransit : SealConfigType := WrapperTypeTransit

def SealConfigTypeGcpCkms : SealConfigType := WrapperTypeGcpCkms

/-- `SealConfigTypeRecovery` is declared in the source as an alias for
`SealConfigTypeShamir`. -/
def SealConfigTypeRecovery : SealConfigType := SealConfigTypeShamir

def SealConfigTypeRecoveryUnsupported : SealConfigType := "unsupported"

/-- The `String()` method of `SealConfigType`. -/
def SealConfigType.str (s : SealConfigType) : String := s

/-- `SealConfigType.IsSameAs`. -/
def SealConfigType.IsSameAs (s : SealConfigType) (t : String) : Bool :=
  s.str == t

/-- `time.Second` of the Go standard library: one second expressed in the
`time.Duration` unit (nanoseconds). -/
def timeSecond : Int := 1000000000

/-- Reduction of an integer into the signed 64-bit range, as Go's `int64`
arithmetic (and hence `time.Duration` multiplication) wraps on overflow:
the result lies in `[-2^63, 2^63)` and is congruent to `x` mod `2^64`. -/
def wrap64 (x : Int) : Int :=
  (x + 9223372036854775808) % 18446744073709551616 - 9223372036854775808

/-- The `RootSchedule` struct of package `sdk/logical`, reconstructed from
the struct literal in `GetRootCredential` (its declaration is outside the
files shown).  `σ` is the external `cron.SpecSchedule` type; the pointer
field `Schedule` becomes `Option σ`.  `time.Duration` fields become `Int`
nanoseconds and `time.Time` fields become `Int` with `0` as the zero
value. -/
structure RootSchedule (σ : Type) where
  Schedule : Option σ
  RotationSchedule : String
  RotationWindow : Int
  TTL : Int
  NextVaultRotation : Int
  LastVaultRotation : Int
deriving Repr, DecidableEq

/-- `RootCredential` of `sdk/logical/root_credential.go`.  The embedded
`RotationOptions` struct contributes its single field `Schedule`, a pointer
to a `RootSchedule`, rendered `Option (RootSchedule σ)`. -/
structure RootCredential (σ : Type) where
  Schedule : Option (RootSchedule σ)
  RotationID : String
  Path : String
  Name : String
deriving Repr, DecidableEq

/-- `RootCredential.Validate`: the body is `return nil`. -/
def RootCredential.Validate {σ : Type} (_s : RootCredential σ) : Option String :=
  none

/-- `GetRootCredential`.  `parse` stands for `DefaultScheduler.Parse` of the
external cron library; a Go `(value, error)` return becomes `Except`.  The
window and TTL are `time.Duration(x) * time.Second`: `time.Duration` is
`int64`, so the nanosecond products are reduced by `wrap64`, matching Go's
wrapping signed 64-bit multiplication. -/
def GetRootCredential {σ : Type} (parse : String → Except String σ)
    (rotationSchedule _path _credentialName : String)
    (rotationWindow ttl : Int) : Except String (RootCredential σ) :=
  match (if rotationSchedule ≠ "" then
      match parse rotationSchedule with
      | .error err => .error err
      | .ok sc => .ok (some sc)
    else (.ok none : Except String (Option σ))) with
  | .error err => .error err
  | .ok cronSc =>
    .ok
      { Schedule := some
          { Schedule := cronSc
            RotationSchedule := rotationSchedule
            RotationWindow := wrap64 (rotationWindow * timeSecond)
            TTL := wrap64 (ttl * timeSecond)
            NextVaultRotation := 0
            LastVaultRotation := 0 }
        RotationID := ""
        Path := _path
        Name := _credentialName }

/-! Spec-side definitions: predicates phrased after the specification text,
to be compared with the embedded source functions. -/

/-- Spec-side: a single PGP key entry base64-decodes and parses as a
public-key entity. -/
def keyOk (decodeB64 : String → Except String (List Nat))
    (readEntity : List Nat → Except String Unit) (k : String) : Bool :=
  match decodeB64 k with
  | .error _ => false
  | .ok data =>
    match readEntity data with
    | .error _ => false
    | .ok _ => true

/-- Spec-side: the error a single PGP key entry produces, if any. -/
def keyErr (decodeB64 : String → Except String (List Nat))
    (readEntity : List Nat → Except String Unit) (k : String) : Option VError :=
  match decodeB64 k with
  | .error e => some (.pgpDecodeError e)
  | .ok data =>
    match readEntity data with
    | .error e => some (.pgpParseError e)
    | .ok _ => none

/-- Spec-side: index of the first PGP key entry that fails to decode or
parse. -/
def firstBadKeyIdx (decodeB64 : String → Except String (List Nat))
    (readEntity : List Nat → Except String Unit) : List String → Option Nat
  | [] => none
  | k :: rest =>
    if keyOk decodeB64 readEntity k then
      (firstBadKeyIdx decodeB64 readEntity rest).map (· + 1)
    else some 0

/-- Spec-side: result of running an ordered list of checks where the first
failure wins. -/
def firstFailure : List (Option VError) → Option VError
  | [] => none
  | none :: rest => firstFailure rest
  | some e :: _ => some e

/-- Modelled from the spec: the validation checks in the order the
specification lists them (first failure wins).  The spec's single step 4
(`RangeError`) covers the two consecutive range checks. -/
def specCheckList (decodeB64 : String → Except String (List Nat))
    (readEntity : List Nat → Except String Unit) (cfg : SealConfig) :
    List (Option VError) :=
  [ if 1 ≤ cfg.SecretShares then none else some .shareCountError,
    if 1 ≤ cfg.SecretThreshold then none else some .thresholdCountError,
    if cfg.SecretShares > 1 ∧ cfg.SecretThreshold = 1 then
      some .thresholdTooLowError else none,
    if cfg.SecretShares ≤ 255 then none else some .sharesRangeError,
    if cfg.SecretThreshold ≤ 255 then none else some .thresholdRangeError,
    if cfg.SecretThreshold ≤ cfg.SecretShares then none
      else some .thresholdExceedsSharesError,
    if cfg.StoredShares ≤ 1 then none else some .storedSharesError,
    if cfg.PGPKeys ≠ [] ∧ (cfg.PGPKeys.length : Int) ≠ cfg.SecretShares then
      some .pgpKeyCountError else none,
    checkPGPKeys decodeB64 readEntity cfg.PGPKeys ]

/-- Spec-side: the share/threshold/storedShares checks (steps 1-6 of the
spec order) all pass. -/
def baseOk (cfg : SealConfig) : Prop :=
  1 ≤ cfg.SecretShares ∧ 1 ≤ cfg.SecretThreshold ∧
    ¬(cfg.SecretShares > 1 ∧ cfg.SecretThreshold = 1) ∧
    cfg.SecretShares ≤ 255 ∧ cfg.SecretThreshold ≤ 255 ∧
    cfg.SecretThreshold ≤ cfg.SecretShares ∧ cfg.StoredShares ≤ 1

instance (cfg : SealConfig) : Decidable (baseOk cfg) := by
  unfold baseOk; infer_instance

/-! Concrete sample data used by counterexamples and witnesses. -/

/-- Sample base64 decoder: only the string `"good"` decodes. -/
def b64demo : String → Except String (List Nat) := fun s =>
  if s = "good" then .ok [153] else .error "illegal base64 data at input byte 0"

/-- Sample entity reader that accepts every byte string. -/
def entDemo : List Nat → Except String Unit := fun _ => .ok ()

/-- Sample cron parser: only `"@daily"` parses. -/
def parseDemo : String → Except String Nat := fun s =>
  if s = "@daily" then .ok 24 else .error "bad schedule"

/-- A minimal valid configuration (one share, threshold one). -/
def cfgBase : SealConfig :=
  { type' := "shamir", SecretShares := 1, SecretThreshold := 1, PGPKeys := []
    Nonce := "", Backup := false, StoredShares := 0, RekeyProgress := []
    VerificationRequired := false, VerificationKey := [], VerificationNonce := ""
    VerificationProgress := [], Name := "" }

/-- Like `cfgBase` but with `StoredShares = -1`. -/
def cfgNegStored : SealConfig := { cfgBase with StoredShares := -1 }

/-- Like `cfgBase` but with `StoredShares = -2`. -/
def cfgNegStored2 : SealConfig := { cfgBase with StoredShares := -2 }

/-- A configuration with an in-flight rekey share submitted. -/
def cfgRekeyInFlight : SealConfig := { cfgBase with RekeyProgress := [[7]] }

/-- Two shares, threshold two, with the undecodable PGP key first. -/
def cfgPgpBadFirst : SealConfig :=
  { cfgBase with SecretShares := 2, SecretThreshold := 2
                 PGPKeys := ["bad", "good"] }

/-- Two shares, threshold two, with the undecodable PGP key second. -/
def cfgPgpBadSecond : SealConfig :=
  { cfgBase with SecretShares := 2, SecretThreshold := 2
                 PGPKeys := ["good", "bad"] }

/-- The spec's own example: three shares but only two PGP keys. -/
def cfgPgpMismatch : SealConfig :=
  { cfgBase with SecretShares := 3, SecretThreshold := 3
                 PGPKeys := ["good", "good"] }

/-- The credential produced by `GetRootCredential parseDemo "@daily" "pth"
"nm" 5 7`, written out. -/
def rcDemo : RootCredential Nat :=
  { Schedule := some
      { Schedule := some 24, RotationSchedule := "@daily"
        RotationWindow := 5 * timeSecond, TTL := 7 * timeSecond
        NextVaultRotation := 0, LastVaultRotation := 0 }
    RotationID := "", Path := "pth", Name := "nm" }

/-! Helper lemmas shared by the claim theorems. -/

theorem copy_if_pos {α : Type} (l : List α) :
    (if l.length > 0 then l.map (fun x => x) else []) = l := by
  cases l <;> simp

theorem checkPGPKeys_eq_none_iff
    (d : String → Except String (List Nat)) (r : List Nat → Except String Unit)
    (l : List String) :
    checkPGPKeys d r l = none ↔ ∀ k ∈ l, keyOk d r k = true := by
  induction l with
  | nil => simp [checkPGPKeys]
  | cons k rest ih =>
    simp only [checkPGPKeys, keyOk, List.mem_cons]
    cases hd : d k with
    | error e => simp [hd]
    | ok data =>
      cases hr : r data with
      | error e => simp [hd, hr]
      | ok u =>
        simp only [hd, hr]
        constructor
        · intro h k' hk'
          rcases hk' with rfl | hk'
          · simp [keyOk, hd, hr]
          · exact (ih.mp h) k' hk'
        · intro h
          exact ih.mpr fun k' hk' => h k' (Or.inr hk')

theorem checkPGPKeys_firstBad
    (d : String → Except String (List Nat)) (r : List Nat → Except String Unit)
    (l : List String) (i : Nat) (h : firstBadKeyIdx d r l = some i) :
    ∃ k, l.get? i = some k ∧ checkPGPKeys d r l = keyErr d r k := by
  induction l generalizing i with
  | nil => simp [firstBadKeyIdx] at h
  | cons k rest ih =>
    by_cases hk : keyOk d r k = true
    · simp only [firstBadKeyIdx, hk, if_pos] at h
      cases hrest : firstBadKeyIdx d r rest with
      | none => simp [hrest] at h
      | some j =>
        rw [hrest] at h
        simp only [Option.map_some'] at h
        obtain ⟨k', hget, hchk⟩ := ih j hrest
        refine ⟨k', ?_, ?_⟩
        · obtain rfl := Option.some.inj h
          simpa using hget
        · simp only [checkPGPKeys, keyOk] at hk ⊢
          cases hd : d k with
          | error e => simp [hd] at hk
          | ok data =>
            cases hr : r data with
            | error e => simp [hd, hr] at hk
            | ok u => simpa [hd, hr] using hchk
    · simp only [firstBadKeyIdx, hk, if_neg, if_false] at h
      obtain rfl : (0 : Nat) = i := Option.some.inj h
      refine ⟨k, rfl, ?_⟩
      simp only [checkPGPKeys, keyErr, keyOk] at hk ⊢
      cases hd : d k with
      | error e => simp [hd]
      | ok data =>
        cases hr : r data with
        | error e => simp [hd, hr]
        | ok u => simp [hd, hr] at hk

theorem firstFailure_singleton (x : Option VError) : firstFailure [x] = x := by
  cases x <;> rfl

theorem wrap64_eq_self (x : Int) (h1 : -9223372036854775808 ≤ x)
    (h2 : x ≤ 9223372036854775807) : wrap64 x = x := by
  unfold wrap64
  rw [Int.emod_eq_of_lt (by omega) (by omega)]
  omega

theorem checkPGPKeys_shape
    (d : String → Except String (List Nat)) (r : List Nat → Except String Unit)
    (l : List String) (e : VError) (h : checkPGPKeys d r l = some e) :
    (∃ s, e = .pgpDecodeError s) ∨ ∃ s, e = .pgpParseError s := by
  induction l with
  | nil => simp [checkPGPKeys] at h
  | cons k rest ih =>
    simp only [checkPGPKeys] at h
    cases hd : d k with
    | error s =>
      simp only [hd] at h
      exact Or.inl ⟨s, (Option.some.inj h).symm⟩
    | ok data =>
      simp only [hd] at h
      cases hr : r data with
      | error s =>
        simp only [hr] at h
        exact Or.inr ⟨s, (Option.some.inj h).symm⟩
      | ok u =>
        simp only [hr] at h
        exact ih h

/-- C3, counterexample: a configuration holding an in-flight rekey share is
not deep-equal to its clone, because `Clone` never copies `RekeyProgress`. -/
theorem clone_not_deep_equal :
    SealConfig.Clone cfgRekeyInFlight ≠ cfgRekeyInFlight := by
  decide

/-- C3, amended: `Clone` returns a copy that agrees with the original on
every field except the two progress lists, which are reset to empty.  In
this value semantics the copied lists are independent by construction, so
the no-shared-mutation part of the claim holds for the fields that are
copied. -/
theorem clone_resets_progress_only (cfg : SealConfig) :
    SealConfig.Clone cfg =
      { cfg with RekeyProgress := [], VerificationProgress := [] } := by
  cases cfg
  simp [SealConfig.Clone, copy_if_pos]

/-- C4, counterexample: `SealConfigTypeRecovery` is the very same tag as
`SealConfigTypeShamir`, and `IsSameAs` compares them equal — the claim says
they are distinct and the comparison yields false. -/
theorem recovery_tag_equals_shamir :
    SealConfigTypeRecovery = SealConfigTypeShamir ∧
      SealConfigTypeRecovery.IsSameAs SealConfigTypeShamir.str = true := by
  constructor
  · rfl
  · decide

/-- C4, amended: the seal-type tags Shamir, Multiseal, the five autoseal
wrapper tags, and RecoveryUnsupported are pairwise distinct, but Recovery is
declared as an alias of Shamir, so resolving a recovery seal's type yields
the Shamir tag and `IsSameAs` against Shamir returns true. -/
theorem sealConfigType_tags :
    List.Pairwise (fun a b => a ≠ b)
      [SealConfigTypeShamir, SealConfigTypeMultiseal, SealConfigTypePkcs11,
       SealConfigTypeAwsKms, SealConfigTypeHsmAutoDeprecated,
       SealConfigTypeTransit, SealConfigTypeGcpCkms,
       SealConfigTypeRecoveryUnsupported] ∧
    SealConfigTypeRecovery = SealConfigTypeShamir ∧
      SealConfigTypeRecovery.IsSameAs (SealConfigTypeShamir.str) = true := by
  refine ⟨?_, rfl, by decide⟩
  decide

set_option maxHeartbeats 1600000 in
/-- C7: `Validate` is pure — threading the receiver through every return
site of the method gives back the unchanged configuration together with the
value `Validate` computes. -/
theorem validate_is_pure (d : String → Except String (List Nat))
    (r : List Nat → Except String Unit) (cfg : SealConfig) :
    SealConfig.ValidateSt d r cfg = (cfg, SealConfig.Validate d r cfg) := by
  unfold SealConfig.ValidateSt SealConfig.Validate
  split_ifs with h1 h2 h3 h4 h5 h6 h7 h8 h9 <;> rfl

/-- C8: a clone keeps every scalar field and the contents of `PGPKeys` and
`VerificationKey`, while `RekeyProgress` and `VerificationProgress` are
empty in the clone no matter what the original held. -/
theorem clone_drops_progress_keeps_rest (cfg : SealConfig) :
    (SealConfig.Clone cfg).RekeyProgress = [] ∧
    (SealConfig.Clone cfg).VerificationProgress = [] ∧
    (SealConfig.Clone cfg).PGPKeys = cfg.PGPKeys ∧
    (SealConfig.Clone cfg).VerificationKey = cfg.VerificationKey ∧
    (SealConfig.Clone cfg).type' = cfg.type' ∧
    (SealConfig.Clone cfg).SecretShares = cfg.SecretShares ∧
    (SealConfig.Clone cfg).SecretThreshold = cfg.SecretThreshold ∧
    (SealConfig.Clone cfg).Nonce = cfg.Nonce ∧
    (SealConfig.Clone cfg).Backup = cfg.Backup ∧
    (SealConfig.Clone cfg).StoredShares = cfg.StoredShares ∧
    (SealConfig.Clone cfg).VerificationRequired = cfg.VerificationRequired ∧
    (SealConfig.Clone cfg).VerificationNonce = cfg.VerificationNonce ∧
    (SealConfig.Clone cfg).Name = cfg.Name := by
  cases cfg
  simp [SealConfig.Clone, copy_if_pos]

/-- C9: `RootCredential.Validate` returns nil for every receiver; no field
is inspected. -/
theorem rootCredential_validate_always_nil (σ : Type)
    (rc : RootCredential σ) : rc.Validate = none :=
  rfl

/-- C1, counterexample: a configuration with `StoredShares = -1` (one
share, threshold one, no PGP keys) passes `Validate`, although the claimed
right-hand side requires `storedShares ∈ {0, 1}`. -/
theorem validate_accepts_negative_storedShares :
    SealConfig.Validate b64demo entDemo cfgNegStored = none ∧
      cfgNegStored.StoredShares ≠ 0 ∧ cfgNegStored.StoredShares ≠ 1 := by
  refine ⟨by decide, by decide, by decide⟩

/-- C1, amended: `Validate` succeeds iff `1 ≤ secretThreshold ≤ secretShares
≤ 255`, `secretShares = 1 ∨ secretThreshold > 1`, `storedShares ≤ 1` (not
`storedShares ∈ {0,1}`: negative values are accepted), and `pgpKeys` is
empty or has exactly `secretShares` entries that all decode and parse. -/
theorem validate_success_iff (d : String → Except String (List Nat))
    (r : List Nat → Except String Unit) (cfg : SealConfig) :
    SealConfig.Validate d r cfg = none ↔
      (1 ≤ cfg.SecretThreshold ∧ cfg.SecretThreshold ≤ cfg.SecretShares ∧
       cfg.SecretShares ≤ 255 ∧
       (cfg.SecretShares = 1 ∨ 1 < cfg.SecretThreshold) ∧
       cfg.StoredShares ≤ 1 ∧
       (cfg.PGPKeys = [] ∨
         ((cfg.PGPKeys.length : Int) = cfg.SecretShares ∧
          ∀ k ∈ cfg.PGPKeys, keyOk d r k = true))) := by
  unfold SealConfig.Validate
  split_ifs with h1 h2 h3 h4 h5 h6 h7 h8 h9
  · exact iff_of_false (by simp) (by rintro ⟨a, b, c, d', e, f⟩; omega)
  · exact iff_of_false (by simp) (by rintro ⟨a, b, c, d', e, f⟩; omega)
  · exact iff_of_false (by simp) (by rintro ⟨a, b, c, d', e, f⟩; omega)
  · exact iff_of_false (by simp) (by rintro ⟨a, b, c, d', e, f⟩; omega)
  · exact iff_of_false (by simp) (by rintro ⟨a, b, c, d', e, f⟩; omega)
  · exact iff_of_false (by simp) (by rintro ⟨a, b, c, d', e, f⟩; omega)
  · exact iff_of_false (by simp) (by rintro ⟨a, b, c, d', e, f⟩; omega)
  · refine iff_of_false (by simp) ?_
    rintro ⟨a, b, c, d', e, hf | ⟨hlen, _⟩⟩
    · rw [hf] at h8; simp at h8
    · exact h8.2 hlen
  · rw [checkPGPKeys_eq_none_iff]
    constructor
    · intro hall
      refine ⟨by omega, by omega, by omega, by omega, by omega, Or.inr ⟨?_, hall⟩⟩
      omega
    · rintro ⟨a, b, c, d', e, hf | ⟨hlen, hall⟩⟩
      · rw [hf] at h9; simp at h9
      · exact hall
  · refine iff_of_true rfl ?_
    refine ⟨by omega, by omega, by omega, by omega, by omega, Or.inl ?_⟩
    have : cfg.PGPKeys.length = 0 := by omega
    exact List.length_eq_zero.mp this

/-- C1, witness for `validate_success_iff` at the concrete configuration
`cfgPgpBadFirst`, whose first PGP key fails to decode under `b64demo`. -/
theorem validate_success_iff_witness :
    SealConfig.Validate b64demo entDemo cfgPgpBadFirst = none ↔
      (1 ≤ cfgPgpBadFirst.SecretThreshold ∧
       cfgPgpBadFirst.SecretThreshold ≤ cfgPgpBadFirst.SecretShares ∧
       cfgPgpBadFirst.SecretShares ≤ 255 ∧
       (cfgPgpBadFirst.SecretShares = 1 ∨ 1 < cfgPgpBadFirst.SecretThreshold) ∧
       cfgPgpBadFirst.StoredShares ≤ 1 ∧
       (cfgPgpBadFirst.PGPKeys = [] ∨
         ((cfgPgpBadFirst.PGPKeys.length : Int) = cfgPgpBadFirst.SecretShares ∧
          ∀ k ∈ cfgPgpBadFirst.PGPKeys, keyOk b64demo entDemo k = true))) :=
  validate_success_iff b64demo entDemo cfgPgpBadFirst

/-- C2, counterexample: `StoredShares = -2` is outside `{0, 1}` yet
`Validate` succeeds instead of failing with the stored-shares error. -/
theorem validate_no_error_on_negative_storedShares :
    SealConfig.Validate b64demo entDemo cfgNegStored2 = none ∧
      cfgNegStored2.StoredShares = -2 := by
  refine ⟨by decide, by decide⟩

/-- C2, amended: `Validate` returns the stored-shares error exactly when the
six share/threshold checks pass and `storedShares > 1`; every accepted
configuration satisfies `storedShares ≤ 1`, but negative values are
accepted, so the enforced invariant is `storedShares ≤ 1`, not
`storedShares ∈ {0, 1}`. -/
theorem validate_storedSharesError_iff (d : String → Except String (List Nat))
    (r : List Nat → Except String Unit) (cfg : SealConfig) :
    (SealConfig.Validate d r cfg = some .storedSharesError ↔
      (1 ≤ cfg.SecretShares ∧ 1 ≤ cfg.SecretThreshold ∧
       ¬(cfg.SecretShares > 1 ∧ cfg.SecretThreshold = 1) ∧
       cfg.SecretShares ≤ 255 ∧ cfg.SecretThreshold ≤ 255 ∧
       cfg.SecretThreshold ≤ cfg.SecretShares ∧ 1 < cfg.StoredShares)) ∧
    (SealConfig.Validate d r cfg = none → cfg.StoredShares ≤ 1) := by
  unfold SealConfig.Validate
  split_ifs with h1 h2 h3 h4 h5 h6 h7 h8 h9
  · exact ⟨iff_of_false (by simp) (by omega), by simp⟩
  · exact ⟨iff_of_false (by simp) (by omega), by simp⟩
  · exact ⟨iff_of_false (by simp) (by tauto), by simp⟩
  · exact ⟨iff_of_false (by simp) (by omega), by simp⟩
  · exact ⟨iff_of_false (by simp) (by omega), by simp⟩
  · exact ⟨iff_of_false (by simp) (by omega), by simp⟩
  · exact ⟨iff_of_true rfl (by omega), by simp⟩
  · exact ⟨iff_of_false (by simp) (by omega), by simp⟩
  · constructor
    · constructor
      · intro hchk
        rcases checkPGPKeys_shape d r _ _ hchk with ⟨s, hs⟩ | ⟨s, hs⟩ <;>
          simp at hs
      · intro hrhs
        exact absurd hrhs.2.2.2.2.2.2 h7
    · intro _
      omega
  · exact ⟨iff_of_false (by simp) (by omega), fun _ => by omega⟩

/-- C2, witness for `validate_storedSharesError_iff`: the minimal valid
configuration is accepted, so its stored-share count is at most one. -/
theorem validate_storedSharesError_iff_witness :
    cfgBase.StoredShares ≤ 1 :=
  (validate_storedSharesError_iff b64demo entDemo cfgBase).2 (by decide)

set_option maxHeartbeats 3200000 in
/-- C5: `Validate` equals the first-failure-wins run of the spec's ordered
check list; the spec's single step 4 (`RangeError`) corresponds to the two
consecutive range checks of the source. -/
theorem validate_first_failure_order (d : String → Except String (List Nat))
    (r : List Nat → Except String Unit) (cfg : SealConfig) :
    SealConfig.Validate d r cfg = firstFailure (specCheckList d r cfg) := by
  unfold SealConfig.Validate specCheckList
  simp only [gt_iff_lt, ← not_lt, ← List.length_pos, ite_not]
  split_ifs <;>
    simp_all [firstFailure, firstFailure_singleton, checkPGPKeys, List.length_pos]

/-- C6, counterexample: moving the undecodable key from position 0 to
position 1 leaves the returned error unchanged, so no function can read the
offending index off the error — `Validate`'s PGP errors do not name the
index. -/
theorem pgp_error_not_indexed :
    SealConfig.Validate b64demo entDemo cfgPgpBadFirst =
      SealConfig.Validate b64demo entDemo cfgPgpBadSecond ∧
    firstBadKeyIdx b64demo entDemo cfgPgpBadFirst.PGPKeys = some 0 ∧
    firstBadKeyIdx b64demo entDemo cfgPgpBadSecond.PGPKeys = some 1 ∧
    ¬ ∃ f : VError → Nat, ∀ (cfg : SealConfig) (e : VError) (i : Nat),
        SealConfig.Validate b64demo entDemo cfg = some e →
        firstBadKeyIdx b64demo entDemo cfg.PGPKeys = some i → f e = i := by
  refine ⟨by decide, by decide, by decide, ?_⟩
  rintro ⟨f, hf⟩
  have h0 := hf cfgPgpBadFirst
    (.pgpDecodeError "illegal base64 data at input byte 0") 0
    (by decide) (by decide)
  have h1 := hf cfgPgpBadSecond
    (.pgpDecodeError "illegal base64 data at input byte 0") 1
    (by decide) (by decide)
  omega

/-- C6, amended: when the earlier checks pass, a non-empty `pgpKeys` list
whose length differs from `secretShares` yields the count error; when the
lengths match, `Validate` returns the decode or parse error of the first
offending entry (wrapping the underlying failure, without naming the
index). -/
theorem validate_pgp_errors (d : String → Except String (List Nat))
    (r : List Nat → Except String Unit) (cfg : SealConfig) :
    (baseOk cfg → cfg.PGPKeys ≠ [] →
       (cfg.PGPKeys.length : Int) ≠ cfg.SecretShares →
       SealConfig.Validate d r cfg = some .pgpKeyCountError) ∧
    (∀ i, baseOk cfg → (cfg.PGPKeys.length : Int) = cfg.SecretShares →
       firstBadKeyIdx d r cfg.PGPKeys = some i →
       ∃ k, cfg.PGPKeys.get? i = some k ∧
         SealConfig.Validate d r cfg = keyErr d r k) := by
  constructor
  · intro hbase hne hlen
    obtain ⟨b1, b2, b3, b4, b5, b6, b7⟩ := hbase
    have hpos : cfg.PGPKeys.length > 0 := List.length_pos.mpr hne
    unfold SealConfig.Validate
    rw [if_neg (by omega), if_neg (by omega), if_neg b3, if_neg (by omega),
        if_neg (by omega), if_neg (by omega), if_neg (by omega),
        if_pos ⟨hpos, hlen⟩]
  · intro i hbase hlen hidx
    obtain ⟨b1, b2, b3, b4, b5, b6, b7⟩ := hbase
    obtain ⟨k, hget, hchk⟩ := checkPGPKeys_firstBad d r _ i hidx
    have hne : cfg.PGPKeys ≠ [] := by
      intro hnil
      rw [hnil] at hidx
      simp [firstBadKeyIdx] at hidx
    have hpos : cfg.PGPKeys.length > 0 := List.length_pos.mpr hne
    refine ⟨k, hget, ?_⟩
    unfold SealConfig.Validate
    rw [if_neg (by omega), if_neg (by omega), if_neg b3, if_neg (by omega),
        if_neg (by omega), if_neg (by omega), if_neg (by omega),
        if_neg (by simp [hlen]), if_pos hpos]
    exact hchk

/-- C6, witness for `validate_pgp_errors` at the spec's own example: three
shares with a two-element key list fail with the count error. -/
theorem validate_pgp_errors_witness :
    SealConfig.Validate b64demo entDemo cfgPgpMismatch =
      some VError.pgpKeyCountError :=
  (validate_pgp_errors b64demo entDemo cfgPgpMismatch).1
    (by decide) (by decide) (by decide)

/-- C10, counterexample: with `rotationWindow = 10^10` seconds the 64-bit
duration product `10^10 * 10^9` overflows `int64` and wraps to
`-8446744073709551616` nanoseconds, so the stored `RotationWindow` does not
equal the given integer interpreted as seconds. -/
theorem getRootCredential_window_overflow :
    GetRootCredential parseDemo "" "p" "n" 10000000000 0 = Except.ok
      { Schedule := some
          { Schedule := none, RotationSchedule := ""
            RotationWindow := -8446744073709551616, TTL := 0
            NextVaultRotation := 0, LastVaultRotation := 0 }
        RotationID := "", Path := "p", Name := "n" } ∧
    (-8446744073709551616 : Int) ≠ 10000000000 * timeSecond := by
  refine ⟨rfl, by decide⟩

/-- C10, amended: `GetRootCredential` fails exactly when the schedule
string is non-empty and the parser rejects it (the parser's error is
returned verbatim); on success the credential records the schedule string,
the window and TTL as the nanosecond products `w * 10^9` and `ttl * 10^9`
reduced by 64-bit wrap-around — hence exactly `w` and `ttl` seconds
whenever those products fit in `int64` — zero rotation timestamps, a cron
schedule that is nil exactly for the empty schedule string, and the given
path and name. -/
theorem getRootCredential_spec (σ : Type) (parse : String → Except String σ)
    (rs p n : String) (w t : Int) :
    (∀ e, GetRootCredential parse rs p n w t = Except.error e ↔
       (rs ≠ "" ∧ parse rs = Except.error e)) ∧
    (∀ rc, GetRootCredential parse rs p n w t = Except.ok rc →
       rc.Path = p ∧ rc.Name = n ∧ rc.RotationID = "" ∧
       ∃ sched, rc.Schedule = some sched ∧
         sched.RotationSchedule = rs ∧
         sched.RotationWindow = wrap64 (w * timeSecond) ∧
         sched.TTL = wrap64 (t * timeSecond) ∧
         (-9223372036854775808 ≤ w * timeSecond →
           w * timeSecond ≤ 9223372036854775807 →
           sched.RotationWindow = w * timeSecond) ∧
         (-9223372036854775808 ≤ t * timeSecond →
           t * timeSecond ≤ 9223372036854775807 →
           sched.TTL = t * timeSecond) ∧
         sched.NextVaultRotation = 0 ∧
         sched.LastVaultRotation = 0 ∧
         (sched.Schedule = none ↔ rs = "")) := by
  by_cases hrs : rs = ""
  · subst hrs
    have hG : GetRootCredential parse "" p n w t = Except.ok
        { Schedule := some
            { Schedule := none, RotationSchedule := ""
              RotationWindow := wrap64 (w * timeSecond)
              TTL := wrap64 (t * timeSecond)
              NextVaultRotation := 0, LastVaultRotation := 0 }
          RotationID := "", Path := p, Name := n } := by
      simp [GetRootCredential]
    constructor
    · intro e
      rw [hG]
      exact iff_of_false (by simp) (by rintro ⟨h1, -⟩; exact h1 rfl)
    · intro rc hrc
      rw [hG] at hrc
      obtain rfl := Except.ok.inj hrc
      exact ⟨rfl, rfl, rfl, _, rfl, rfl, rfl, rfl,
        fun h1 h2 => wrap64_eq_self _ h1 h2,
        fun h1 h2 => wrap64_eq_self _ h1 h2,
        rfl, rfl, iff_of_true rfl rfl⟩
  · cases hp : parse rs with
    | error e0 =>
      have hG : GetRootCredential parse rs p n w t = Except.error e0 := by
        simp [GetRootCredential, hrs, hp]
      constructor
      · intro e
        rw [hG]
        simp only [Except.error.injEq]
        constructor
        · rintro rfl
          exact ⟨hrs, rfl⟩
        · rintro ⟨-, hpe⟩
          exact hpe
      · intro rc hrc
        rw [hG] at hrc
        exact Except.noConfusion hrc
    | ok sc =>
      have hG : GetRootCredential parse rs p n w t = Except.ok
          { Schedule := some
              { Schedule := some sc, RotationSchedule := rs
                RotationWindow := wrap64 (w * timeSecond)
                TTL := wrap64 (t * timeSecond)
                NextVaultRotation := 0, LastVaultRotation := 0 }
            RotationID := "", Path := p, Name := n } := by
        simp [GetRootCredential, hrs, hp]
      constructor
      · intro e
        rw [hG]
        refine iff_of_false (by simp) ?_
        rintro ⟨-, hpe⟩
        exact Except.noConfusion hpe
      · intro rc hrc
        rw [hG] at hrc
        obtain rfl := Except.ok.inj hrc
        exact ⟨rfl, rfl, rfl, _, rfl, rfl, rfl, rfl,
          fun h1 h2 => wrap64_eq_self _ h1 h2,
          fun h1 h2 => wrap64_eq_self _ h1 h2,
          rfl, rfl, iff_of_false (by simp) hrs⟩

/-- C10, witness for `getRootCredential_spec`: the concrete parser
`parseDemo` accepts `"@daily"`, the in-range side conditions are discharged
at 5 and 7 seconds, and the resulting credential carries the expected
fields. -/
theorem getRootCredential_spec_witness :
    rcDemo.Path = "pth" ∧
      ∃ sched, rcDemo.Schedule = some sched ∧
        sched.RotationSchedule = "@daily" ∧
        sched.RotationWindow = 5 * timeSecond ∧
        sched.TTL = 7 * timeSecond ∧
        (sched.Schedule = none ↔ "@daily" = "") := by
  obtain ⟨hp, hn, hid, sched, hs, hsr, hw, ht, hwin, htin, hnx, hls, hiff⟩ :=
    (getRootCredential_spec Nat parseDemo "@daily" "pth" "nm" 5 7).2 rcDemo
      rfl
  exact ⟨hp, sched, hs, hsr, hwin (by decide) (by decide),
    htin (by decide) (by decide), hiff⟩

end Vault
